import Mathlib

/-!
Verification of the thumbdrive repository: a shallow embedding of the
block-device layer (trek_usb.py) and the NBD request handler
(nbd_server.py), with theorems settling the frozen claims.

Modelling conventions:
* Device storage is a byte map Nat → Nat; the USB bulk transport is
  modelled as reliable (a bulk read of n bytes returns exactly the n
  bytes of the underlying store, a bulk write stores all bytes).
* Python ints on the API boundary are Int; byte strings are List Nat.
* A Python function that can raise returns Except DevErr.
-/

/-! ### Data model and operations, translated from the source -/

/-- Errors raised by the python code (all ValueError at runtime; the
constructors follow the error taxonomy of the spec). -/
inductive DevErr where
  | rangeError
  | lengthMismatch
  | protocolError
  | negSeek
deriving DecidableEq

def SECTOR_SIZE : Nat := 512

def MAX_CHUNK_SECTORS : Nat := 32

def INFO_RESPONSE_LEN : Nat := 31

/-- One control-out + bulk-in transaction of TrekDevice.read_chunk under the
reliable-transport model: the count*512 bytes of the store from sector lba. -/
def readChunk (d : Nat → Nat) (lba count : Nat) : List Nat :=
  (List.range (count * SECTOR_SIZE)).map (fun i => d (lba * SECTOR_SIZE + i))

/-- One control-out + bulk-out transaction of TrekDevice.write_chunk under the
reliable-transport model: store data at byte lba*512 onward. -/
def writeChunk (d : Nat → Nat) (lba : Nat) (data : List Nat) : Nat → Nat :=
  fun a =>
    if lba * SECTOR_SIZE ≤ a ∧ a < lba * SECTOR_SIZE + data.length then
      data.getD (a - lba * SECTOR_SIZE) 0
    else d a

/-- The while-loop of TrekDevice.read_blocks: split into chunks of at most
MAX_CHUNK_SECTORS sectors and concatenate the chunk reads. -/
def readLoop (d : Nat → Nat) (lba count : Nat) : List Nat :=
  if h : count = 0 then []
  else
    readChunk d lba (min count MAX_CHUNK_SECTORS) ++
      readLoop d (lba + min count MAX_CHUNK_SECTORS)
        (count - min count MAX_CHUNK_SECTORS)
termination_by count
decreasing_by
  simp only [MAX_CHUNK_SECTORS]
  omega

/-- The while-loop of TrekDevice.write_blocks: write successive slices of
data, at most MAX_CHUNK_SECTORS sectors per transaction. -/
def writeLoop (d : Nat → Nat) (lba : Nat) (data : List Nat) (count : Nat) :
    Nat → Nat :=
  if h : count = 0 then d
  else
    writeLoop
      (writeChunk d lba (data.take (min count MAX_CHUNK_SECTORS * SECTOR_SIZE)))
      (lba + min count MAX_CHUNK_SECTORS)
      (data.drop (min count MAX_CHUNK_SECTORS * SECTOR_SIZE))
      (count - min count MAX_CHUNK_SECTORS)
termination_by count
decreasing_by
  simp only [MAX_CHUNK_SECTORS]
  omega

/-- The (lba, count) pairs of the successive transactions issued by the
chunking loops of read_blocks / write_blocks. -/
def chunkPlan (lba count : Nat) : List (Nat × Nat) :=
  if h : count = 0 then []
  else
    (lba, min count MAX_CHUNK_SECTORS) ::
      chunkPlan (lba + min count MAX_CHUNK_SECTORS)
        (count - min count MAX_CHUNK_SECTORS)
termination_by count
decreasing_by
  simp only [MAX_CHUNK_SECTORS]
  omega

/-- TrekDevice.read_blocks (trek_usb.py lines 335-360). -/
def TrekDevice.read_blocks (d : Nat → Nat) (total : Nat) (lba count : Int) :
    Except DevErr (List Nat) :=
  if count ≤ 0 then .ok []
  else if lba < 0 ∨ lba + count > (total : Int) then .error .rangeError
  else .ok (readLoop d lba.toNat count.toNat)

/-- TrekDevice.write_blocks (trek_usb.py lines 362-391). -/
def TrekDevice.write_blocks (d : Nat → Nat) (total : Nat) (lba count : Int)
    (data : List Nat) : Except DevErr (Nat → Nat) :=
  if (data.length : Int) ≠ count * (SECTOR_SIZE : Int) then .error .lengthMismatch
  else if lba < 0 ∨ lba + count > (total : Int) then .error .rangeError
  else .ok (writeLoop d lba.toNat data count.toNat)

/-- BlockDevice.capacity: sector_size * total_sectors. -/
def capacity (total : Nat) : Nat := SECTOR_SIZE * total

/-- TrekDevice.read (trek_usb.py lines 395-414).  In the branch past the
bounds check both offset and length are nonnegative, so Nat division
coincides with python floor division. -/
def TrekDevice.read (d : Nat → Nat) (total : Nat) (offset length : Int) :
    Except DevErr (List Nat) :=
  if length ≤ 0 then .ok []
  else if offset < 0 ∨ offset + length > (capacity total : Int) then
    .error .rangeError
  else
    let first := offset.toNat / SECTOR_SIZE
    let last := (offset.toNat + length.toNat - 1) / SECTOR_SIZE
    let count := last - first + 1
    (TrekDevice.read_blocks d total (first : Int) (count : Int)).map
      (fun raw => (raw.drop (offset.toNat - first * SECTOR_SIZE)).take length.toNat)

/-- TrekDevice.write (trek_usb.py lines 416-443).  The bytearray slice
assignment buf[s : s+len] = data is take s ++ data ++ drop (s+len). -/
def TrekDevice.write (d : Nat → Nat) (total : Nat) (offset : Int)
    (data : List Nat) : Except DevErr (Nat → Nat) :=
  if data.length = 0 then .ok d
  else if offset < 0 ∨ offset + (data.length : Int) > (capacity total : Int) then
    .error .rangeError
  else
    let o := offset.toNat
    let first := o / SECTOR_SIZE
    let last := (o + data.length - 1) / SECTOR_SIZE
    let count := last - first + 1
    let start := o - first * SECTOR_SIZE
    if start = 0 ∧ data.length % SECTOR_SIZE = 0 then
      TrekDevice.write_blocks d total (first : Int) (count : Int) data
    else
      (TrekDevice.read_blocks d total (first : Int) (count : Int)).bind
        (fun raw =>
          TrekDevice.write_blocks d total (first : Int) (count : Int)
            (raw.take start ++ data ++ raw.drop (start + data.length)))

/-- The device state after an operation that returns a new state on
success; an exception leaves the state as it was. -/
def runWrite (d : Nat → Nat) (r : Except DevErr (Nat → Nat)) : Nat → Nat :=
  match r with
  | .ok d2 => d2
  | .error _ => d

/-- Bool-valued check that a transaction plan is contiguous starting at a
given lba: each entry starts exactly where the previous one ended, so the
lba ranges are strictly ascending, non-overlapping, and their union is an
interval. -/
def contiguousFrom : Nat → List (Nat × Nat) → Bool
  | _, [] => true
  | start, p :: rest => (p.1 == start) && contiguousFrom (start + p.2) rest

theorem chunkPlan_bounds :
    ∀ count lba, ∀ p ∈ chunkPlan lba count,
      0 < p.2 ∧ p.2 ≤ MAX_CHUNK_SECTORS := by
  intro count
  induction count using Nat.strong_induction_on with
  | _ count ih =>
    intro lba p hp
    rw [chunkPlan] at hp
    by_cases h : count = 0
    · simp [h] at hp
    · rw [dif_neg h] at hp
      rcases List.mem_cons.mp hp with h1 | h1
      · subst h1
        constructor <;> (simp only [MAX_CHUNK_SECTORS]; omega)
      · exact ih _ (by simp only [MAX_CHUNK_SECTORS]; omega) _ _ h1

theorem chunkPlan_contiguous :
    ∀ count lba, contiguousFrom lba (chunkPlan lba count) = true := by
  intro count
  induction count using Nat.strong_induction_on with
  | _ count ih =>
    intro lba
    rw [chunkPlan]
    by_cases h : count = 0
    · rw [dif_pos h]
      rfl
    · rw [dif_neg h, contiguousFrom]
      simp only [beq_self_eq_true, Bool.true_and]
      exact ih _ (by simp only [MAX_CHUNK_SECTORS]; omega) _

theorem chunkPlan_sum :
    ∀ count lba, ((chunkPlan lba count).map Prod.snd).sum = count := by
  intro count
  induction count using Nat.strong_induction_on with
  | _ count ih =>
    intro lba
    rw [chunkPlan]
    by_cases h : count = 0
    · rw [dif_pos h]
      simp [h]
    · rw [dif_neg h]
      simp only [List.map_cons, List.sum_cons]
      rw [ih _ (by simp only [MAX_CHUNK_SECTORS]; omega)]
      simp only [MAX_CHUNK_SECTORS]
      omega

theorem readLoop_eq_flatten (d : Nat → Nat) :
    ∀ count lba, readLoop d lba count =
      ((chunkPlan lba count).map (fun p => readChunk d p.1 p.2)).flatten := by
  intro count
  induction count using Nat.strong_induction_on with
  | _ count ih =>
    intro lba
    rw [readLoop, chunkPlan]
    by_cases h : count = 0
    · rw [dif_pos h, dif_pos h]
      rfl
    · rw [dif_neg h, dif_neg h]
      simp only [List.map_cons, List.flatten_cons]
      rw [ih _ (by simp only [MAX_CHUNK_SECTORS]; omega)]

theorem chunkPlan_ne_nil (lba count : Nat) (h : count ≠ 0) :
    chunkPlan lba count ≠ [] := by
  rw [chunkPlan, dif_neg h]
  simp

/-- FileBlockDevice.__init__ (trek_usb.py lines 497-503): total sectors is
the file size integer-divided by the sector size. -/
def FileBlockDevice.total_sectors (size ss : Nat) : Nat := size / ss

/-- BlockDevice.capacity for a general sector size (trek_usb.py 220-223). -/
def BlockDevice.capacity (ss total : Nat) : Nat := ss * total

/-- Parsed 31-byte device-info response (trek_usb.py DeviceInfo). -/
structure DeviceInfo where
  raw : List Nat
  vendor_id : Nat
  product_id : Nat
  size_param1 : Nat
  size_param2 : Nat
  total_sectors : Nat
  total_bytes : Nat
deriving DecidableEq

/-- struct.unpack_from of a little-endian unsigned 32-bit field at byte
offset j of a byte list. -/
def le32 (data : List Nat) (j : Nat) : Nat :=
  data.getD j 0 + 256 * data.getD (j + 1) 0 + 65536 * data.getD (j + 2) 0 +
    16777216 * data.getD (j + 3) 0

/-- DeviceInfo.from_bytes (trek_usb.py lines 79-105). -/
def DeviceInfo.from_bytes (data : List Nat) : Except DevErr DeviceInfo :=
  if data.length < INFO_RESPONSE_LEN then .error .protocolError
  else
    .ok { raw := data
        , vendor_id := (data.getD 2 0) <<< 8 ||| data.getD 3 0
        , product_id := (data.getD 4 0) <<< 8 ||| data.getD 5 0
        , size_param1 := le32 data 11
        , size_param2 := le32 data 15
        , total_sectors := le32 data 11 * le32 data 15
        , total_bytes := le32 data 11 * le32 data 15 * SECTOR_SIZE }

/-- TrekDevice.open (trek_usb.py lines 261-276) applied to the raw info
response bytes: on a parse failure the transport is closed before the
error propagates.  The Bool records whether the transport was released. -/
def TrekDevice.open_model (resp : List Nat) : Except DevErr DeviceInfo × Bool :=
  match DeviceInfo.from_bytes resp with
  | .ok info => (.ok info, false)
  | .error e => (.error e, true)

/-- FileBlockDevice.read_blocks (trek_usb.py lines 513-515): seek to
lba*ss and read count*ss bytes.  A negative seek position raises; a
negative read size reads to EOF; there is no bounds check, so a read past
EOF just returns the (possibly short or empty) bytes present. -/
def FileBlockDevice.read_blocks (f : List Nat) (ss : Nat) (lba count : Int) :
    Except DevErr (List Nat) :=
  if lba * (ss : Int) < 0 then .error .negSeek
  else if count * (ss : Int) < 0 then .ok (f.drop (lba * (ss : Int)).toNat)
  else .ok ((f.drop (lba * (ss : Int)).toNat).take (count * (ss : Int)).toNat)

/-- Python file write at a byte position: zero-fill any gap past EOF, then
overwrite in place, extending the file as needed. -/
def fileWriteAt (f : List Nat) (pos : Nat) (data : List Nat) : List Nat :=
  (f.take pos ++ List.replicate (pos - f.length) 0) ++ data ++
    f.drop (pos + data.length)

/-- FileBlockDevice.write_blocks (trek_usb.py lines 517-520): seek + write
+ flush; the count argument and the data length are never validated. -/
def FileBlockDevice.write_blocks (f : List Nat) (ss : Nat) (lba _count : Int)
    (data : List Nat) : Except DevErr (List Nat) :=
  if lba * (ss : Int) < 0 then .error .negSeek
  else .ok (fileWriteAt f (lba * (ss : Int)).toNat data)

/-- A mutating / durability call performed on the BlockDevice by the
request handler (reads never mutate; flush would be a durability call —
no flush method even exists on BlockDevice). -/
inductive DevOp where
  | write
  | flush
deriving DecidableEq

/-- The error-code / payload part of one NBD reply (magic and cookie are
fixed framing copied from the request). -/
structure NBDReply where
  err : Nat
  payload : List Nat
deriving DecidableEq

/-- Outcome of handling one request: optional reply, device state after,
successfully performed mutating device calls, payload bytes drained off
the wire, and whether the request loop continues. -/
structure HandleOut where
  reply : Option NBDReply
  mem : Nat → Nat
  mutations : List DevOp
  consumed : Nat
  cont : Bool

def NBD_CMD_READ : Nat := 0

def NBD_CMD_WRITE : Nat := 1

def NBD_CMD_DISC : Nat := 2

def NBD_CMD_FLUSH : Nat := 3

def NBD_EIO : Nat := 5

def NBD_EINVAL : Nat := 22

/-- NBDServer._byte_read (nbd_server.py lines 215-222).  Wire offset and
length are unsigned and in the misaligned branch where this runs
offset + length ≥ 1, so Nat arithmetic matches python floor division. -/
def nbd_byte_read (d : Nat → Nat) (total offset length : Nat) :
    Except DevErr (List Nat) :=
  let first := offset / SECTOR_SIZE
  let last := (offset + length - 1) / SECTOR_SIZE
  let count := last - first + 1
  (TrekDevice.read_blocks d total (first : Int) (count : Int)).map
    (fun raw => (raw.drop (offset - first * SECTOR_SIZE)).take length)

/-- NBDServer._byte_write (nbd_server.py lines 224-237). -/
def nbd_byte_write (d : Nat → Nat) (total offset : Nat) (data : List Nat) :
    Except DevErr (Nat → Nat) :=
  let length := data.length
  let first := offset / SECTOR_SIZE
  let last := (offset + length - 1) / SECTOR_SIZE
  let count := last - first + 1
  let start := offset - first * SECTOR_SIZE
  if start = 0 ∧ length % SECTOR_SIZE = 0 then
    TrekDevice.write_blocks d total (first : Int) (count : Int) data
  else
    (TrekDevice.read_blocks d total (first : Int) (count : Int)).bind
      (fun raw =>
        TrekDevice.write_blocks d total (first : Int) (count : Int)
          (raw.take start ++ data ++ raw.drop (start + length)))

/-- The read performed by the READ dispatch of NBDServer._handle_request
(nbd_server.py lines 163-170): misaligned offset or length routes through
the byte-addressed path, aligned requests call read_blocks directly. -/
def nbdReadAttempt (d : Nat → Nat) (total offset length : Nat) :
    Except DevErr (List Nat) :=
  if offset % SECTOR_SIZE ≠ 0 ∨ length % SECTOR_SIZE ≠ 0 then
    nbd_byte_read d total offset length
  else
    TrekDevice.read_blocks d total ((offset / SECTOR_SIZE : Nat) : Int)
      ((length / SECTOR_SIZE : Nat) : Int)

/-- NBDServer._handle_request (nbd_server.py lines 152-211) instantiated
with the hardware-backed device model. -/
def handleRequest (ro : Bool) (d : Nat → Nat) (total : Nat)
    (cmd offset length : Nat) (stream : List Nat) : HandleOut :=
  if cmd = NBD_CMD_READ then
    match nbdReadAttempt d total offset length with
    | .ok bs =>
        { reply := some { err := 0, payload := bs }, mem := d, mutations := [],
          consumed := 0, cont := true }
    | .error _ =>
        { reply := some { err := NBD_EIO, payload := List.replicate length 0 },
          mem := d, mutations := [], consumed := 0, cont := true }
  else if cmd = NBD_CMD_WRITE then
    let data := stream.take length
    if ro then
      { reply := some { err := NBD_EINVAL, payload := [] }, mem := d,
        mutations := [], consumed := length, cont := true }
    else if offset % SECTOR_SIZE ≠ 0 ∨ length % SECTOR_SIZE ≠ 0 then
      match nbd_byte_write d total offset data with
      | .ok d2 =>
          { reply := some { err := 0, payload := [] }, mem := d2,
            mutations := [DevOp.write], consumed := length, cont := true }
      | .error _ =>
          { reply := some { err := NBD_EIO, payload := [] }, mem := d,
            mutations := [], consumed := length, cont := true }
    else
      match TrekDevice.write_blocks d total ((offset / SECTOR_SIZE : Nat) : Int)
          ((length / SECTOR_SIZE : Nat) : Int) data with
      | .ok d2 =>
          { reply := some { err := 0, payload := [] }, mem := d2,
            mutations := [DevOp.write], consumed := length, cont := true }
      | .error _ =>
          { reply := some { err := NBD_EIO, payload := [] }, mem := d,
            mutations := [], consumed := length, cont := true }
  else if cmd = NBD_CMD_DISC then
    { reply := none, mem := d, mutations := [], consumed := 0, cont := false }
  else if cmd = NBD_CMD_FLUSH then
    { reply := some { err := 0, payload := [] }, mem := d, mutations := [],
      consumed := 0, cont := true }
  else
    { reply := some { err := NBD_EINVAL, payload := [] }, mem := d,
      mutations := [], consumed := 0, cont := true }

theorem getD_drop {α : Type} (l : List α) (n i : Nat) (v : α) :
    (l.drop n).getD i v = l.getD (n + i) v := by
  rw [List.getD_eq_getD_get?, List.getD_eq_getD_get?, List.get?_drop]

theorem getD_take {α : Type} (l : List α) (n i : Nat) (v : α) (h : i < n) :
    (l.take n).getD i v = l.getD i v := by
  rw [List.getD_eq_getD_get?, List.getD_eq_getD_get?, List.get?_eq_getElem?,
    List.get?_eq_getElem?, List.getElem?_take_of_lt h]

theorem length_readChunk (d : Nat → Nat) (lba count : Nat) :
    (readChunk d lba count).length = count * SECTOR_SIZE := by
  simp [readChunk]

theorem readChunk_append (d : Nat → Nat) (lba c count : Nat) (h : c ≤ count) :
    readChunk d lba c ++ readChunk d (lba + c) (count - c) =
      readChunk d lba count := by
  have hsplit : count * SECTOR_SIZE = c * SECTOR_SIZE + (count - c) * SECTOR_SIZE := by
    simp only [SECTOR_SIZE]; omega
  apply List.ext_getElem
  · simp only [List.length_append, length_readChunk, SECTOR_SIZE]
    omega
  · intro i h1 h2
    rw [List.getElem_append]
    split
    · simp only [readChunk, List.getElem_map, List.getElem_range]
    · simp only [readChunk, List.getElem_map, List.getElem_range,
        List.length_map, List.length_range]
      refine congrArg d ?_
      simp only [length_readChunk, SECTOR_SIZE] at *
      omega

theorem readLoop_eq (d : Nat → Nat) :
    ∀ count lba, readLoop d lba count = readChunk d lba count := by
  intro count
  induction count using Nat.strong_induction_on with
  | _ count ih =>
    intro lba
    rw [readLoop]
    by_cases h : count = 0
    · subst h
      simp [readChunk]
    · rw [dif_neg h,
        ih (count - min count MAX_CHUNK_SECTORS)
          (by simp only [MAX_CHUNK_SECTORS]; omega)]
      exact readChunk_append d lba _ count (Nat.min_le_left _ _)

theorem writeChunk_compose (d : Nat → Nat) (lba c count : Nat) (data : List Nat)
    (hlen : data.length = count * SECTOR_SIZE) (hc : c ≤ count) (a : Nat) :
    writeChunk (writeChunk d lba (data.take (c * SECTOR_SIZE))) (lba + c)
        (data.drop (c * SECTOR_SIZE)) a = writeChunk d lba data a := by
  simp only [writeChunk, List.length_drop, List.length_take, hlen]
  simp only [SECTOR_SIZE] at *
  split_ifs with h1 h2 h3 h2 h3
  · rw [getD_drop]
    congr 1
    omega
  · omega
  · rw [getD_take]
    · omega
  · omega
  · omega
  · rfl

theorem writeLoop_eq :
    ∀ count (d : Nat → Nat) (lba : Nat) (data : List Nat),
      data.length = count * SECTOR_SIZE →
      ∀ a, writeLoop d lba data count a = writeChunk d lba data a := by
  intro count
  induction count using Nat.strong_induction_on with
  | _ count ih =>
    intro d lba data hlen a
    rw [writeLoop]
    by_cases h : count = 0
    · subst h
      rw [dif_pos rfl, writeChunk]
      have hl : data.length = 0 := by simpa using hlen
      rw [if_neg (by omega)]
    · rw [dif_neg h,
        ih (count - min count MAX_CHUNK_SECTORS)
          (by simp only [MAX_CHUNK_SECTORS]; omega)
          _ _ _
          (by
            simp only [List.length_drop, hlen, SECTOR_SIZE, MAX_CHUNK_SECTORS]
            omega)]
      exact writeChunk_compose d lba _ count data hlen (Nat.min_le_left _ _) a

theorem read_blocks_ok (d : Nat → Nat) (total lba count : Nat)
    (h : lba + count ≤ total) :
    TrekDevice.read_blocks d total (lba : Int) (count : Int) =
      .ok (readChunk d lba count) := by
  by_cases h0 : count = 0
  · subst h0
    simp [TrekDevice.read_blocks, readChunk]
  · rw [TrekDevice.read_blocks, if_neg (by omega), if_neg (by push_cast; omega)]
    rw [readLoop_eq]
    simp

theorem read_blocks_err (d : Nat → Nat) (total : Nat) (lba count : Int)
    (hpos : 0 < count) (h : lba < 0 ∨ (total : Int) < lba + count) :
    TrekDevice.read_blocks d total lba count = .error .rangeError := by
  rw [TrekDevice.read_blocks, if_neg (by omega), if_pos (by omega)]

theorem write_blocks_ok (d : Nat → Nat) (total lba count : Nat)
    (data : List Nat) (hlen : data.length = count * SECTOR_SIZE)
    (h : lba + count ≤ total) :
    TrekDevice.write_blocks d total (lba : Int) (count : Int) data =
      .ok (writeLoop d lba data count) := by
  rw [TrekDevice.write_blocks, if_neg (by push_cast [hlen]; omega),
    if_neg (by push_cast; omega)]
  simp

theorem write_blocks_err (d : Nat → Nat) (total : Nat) (lba count : Int)
    (data : List Nat) (hlen : (data.length : Int) = count * (SECTOR_SIZE : Int))
    (h : lba < 0 ∨ (total : Int) < lba + count) :
    TrekDevice.write_blocks d total lba count data = .error .rangeError := by
  rw [TrekDevice.write_blocks, if_neg (by omega), if_pos (by omega)]

theorem write_blocks_len_err (d : Nat → Nat) (total : Nat) (lba count : Int)
    (data : List Nat) (hlen : (data.length : Int) ≠ count * (SECTOR_SIZE : Int)) :
    TrekDevice.write_blocks d total lba count data = .error .lengthMismatch := by
  rw [TrekDevice.write_blocks, if_pos hlen]

theorem getD_readChunk (d : Nat → Nat) (lba count i : Nat)
    (h : i < count * SECTOR_SIZE) :
    (readChunk d lba count).getD i 0 = d (lba * SECTOR_SIZE + i) := by
  rw [List.getD_eq_getElem _ _ (by rw [length_readChunk]; exact h)]
  simp [readChunk]

theorem read_spec (d : Nat → Nat) (total offset len : Nat)
    (h : offset + len ≤ capacity total) :
    TrekDevice.read d total (offset : Int) (len : Int) =
      .ok ((List.range len).map (fun i => d (offset + i))) := by
  by_cases h0 : len = 0
  · subst h0
    simp [TrekDevice.read]
  · simp only [capacity, SECTOR_SIZE] at h
    rw [TrekDevice.read, if_neg (by omega),
      if_neg (by simp only [capacity, SECTOR_SIZE]; push_cast; omega)]
    simp only [Int.toNat_ofNat]
    rw [read_blocks_ok d total _ _
      (by simp only [SECTOR_SIZE]; omega)]
    simp only [Except.map]
    refine congrArg Except.ok ?_
    apply List.ext_getElem
    · simp only [List.length_take, List.length_drop, length_readChunk,
        List.length_map, List.length_range, SECTOR_SIZE]
      omega
    · intro i h1 h2
      simp only [List.getElem_take, List.getElem_drop, readChunk,
        List.getElem_map, List.getElem_range]
      refine congrArg d ?_
      simp only [SECTOR_SIZE]
      omega

theorem write_spec (d : Nat → Nat) (total offset : Nat) (data : List Nat)
    (h : offset + data.length ≤ capacity total) :
    ∃ d2, TrekDevice.write d total (offset : Int) data = .ok d2 ∧
      ∀ a, d2 a = if offset ≤ a ∧ a < offset + data.length
        then data.getD (a - offset) 0 else d a := by
  by_cases h0 : data.length = 0
  · refine ⟨d, by rw [TrekDevice.write, if_pos h0], ?_⟩
    intro a
    rw [if_neg (by omega)]
  · simp only [capacity, SECTOR_SIZE] at h
    rw [TrekDevice.write, if_neg h0,
      if_neg (by simp only [capacity, SECTOR_SIZE]; push_cast; omega)]
    simp only [Int.toNat_ofNat]
    by_cases halign :
        offset - offset / SECTOR_SIZE * SECTOR_SIZE = 0 ∧
          data.length % SECTOR_SIZE = 0
    · rw [if_pos halign]
      have hlen : data.length =
          ((offset + data.length - 1) / SECTOR_SIZE - offset / SECTOR_SIZE + 1) *
            SECTOR_SIZE := by
        simp only [SECTOR_SIZE] at halign ⊢
        omega
      rw [write_blocks_ok d total (offset / SECTOR_SIZE)
        ((offset + data.length - 1) / SECTOR_SIZE - offset / SECTOR_SIZE + 1)
        data hlen (by simp only [SECTOR_SIZE] at halign ⊢; omega)]
      refine ⟨_, rfl, ?_⟩
      intro a
      rw [writeLoop_eq _ d _ data hlen a, writeChunk]
      simp only [SECTOR_SIZE] at halign ⊢
      split_ifs with h1 h2 h2
      · refine congrArg (fun j => data.getD j 0) ?_
        omega
      · omega
      · omega
      · rfl
    · rw [if_neg halign]
      have hbound : offset / SECTOR_SIZE +
          ((offset + data.length - 1) / SECTOR_SIZE - offset / SECTOR_SIZE + 1) ≤
            total := by
        simp only [SECTOR_SIZE] at *
        omega
      rw [read_blocks_ok d total _ _ hbound]
      simp only [Except.bind]
      have hbuflen :
          ((readChunk d (offset / SECTOR_SIZE)
              ((offset + data.length - 1) / SECTOR_SIZE - offset / SECTOR_SIZE + 1)).take
                (offset - offset / SECTOR_SIZE * SECTOR_SIZE) ++
            data ++
            (readChunk d (offset / SECTOR_SIZE)
              ((offset + data.length - 1) / SECTOR_SIZE - offset / SECTOR_SIZE + 1)).drop
                (offset - offset / SECTOR_SIZE * SECTOR_SIZE + data.length)).length =
          ((offset + data.length - 1) / SECTOR_SIZE - offset / SECTOR_SIZE + 1) *
            SECTOR_SIZE := by
        simp only [List.length_append, List.length_take, List.length_drop,
          length_readChunk, SECTOR_SIZE]
        omega
      rw [write_blocks_ok d total (offset / SECTOR_SIZE)
        ((offset + data.length - 1) / SECTOR_SIZE - offset / SECTOR_SIZE + 1)
        _ hbuflen hbound]
      refine ⟨_, rfl, ?_⟩
      intro a
      rw [writeLoop_eq _ d _ _ hbuflen a, writeChunk]
      rw [hbuflen]
      by_cases hin : offset / SECTOR_SIZE * SECTOR_SIZE ≤ a ∧
          a < offset / SECTOR_SIZE * SECTOR_SIZE +
            ((offset + data.length - 1) / SECTOR_SIZE - offset / SECTOR_SIZE + 1) *
              SECTOR_SIZE
      · rw [if_pos hin]
        have htk : ((readChunk d (offset / SECTOR_SIZE)
            ((offset + data.length - 1) / SECTOR_SIZE - offset / SECTOR_SIZE + 1)).take
              (offset - offset / SECTOR_SIZE * SECTOR_SIZE)).length =
            offset - offset / SECTOR_SIZE * SECTOR_SIZE := by
          simp only [List.length_take, length_readChunk, SECTOR_SIZE]
          omega
        by_cases hj1 : a - offset / SECTOR_SIZE * SECTOR_SIZE <
            offset - offset / SECTOR_SIZE * SECTOR_SIZE
        · rw [List.append_assoc, List.getD_append _ _ _ _ (by rw [htk]; exact hj1),
            getD_take _ _ _ _ hj1,
            getD_readChunk _ _ _ _ (by simp only [SECTOR_SIZE] at *; omega),
            if_neg (by simp only [SECTOR_SIZE] at *; omega)]
          refine congrArg d ?_
          simp only [SECTOR_SIZE] at *
          omega
        · rw [List.append_assoc,
            List.getD_append_right _ _ _ _ (by rw [htk]; omega), htk]
          by_cases hj2 : a - offset / SECTOR_SIZE * SECTOR_SIZE -
              (offset - offset / SECTOR_SIZE * SECTOR_SIZE) < data.length
          · rw [List.getD_append _ _ _ _ hj2,
              if_pos (by simp only [SECTOR_SIZE] at *; omega)]
            refine congrArg (fun j => data.getD j 0) ?_
            simp only [SECTOR_SIZE] at *
            omega
          · rw [List.getD_append_right _ _ _ _ (by omega), getD_drop,
              getD_readChunk _ _ _ _ (by simp only [SECTOR_SIZE] at *; omega),
              if_neg (by simp only [SECTOR_SIZE] at *; omega)]
            refine congrArg d ?_
            simp only [SECTOR_SIZE] at *
            omega
      · rw [if_neg hin, if_neg (by simp only [SECTOR_SIZE] at *; omega)]

/-- Claim C1: for 0 ≤ offset and offset + len(D) ≤ capacity, byte-addressed
write(offset, D) followed by read(offset, len(D)) returns exactly D — also on
the unaligned read-modify-write slow path — and every byte outside
[offset, offset + len(D)) is unchanged. -/
theorem C1_write_read_roundtrip (d : Nat → Nat) (total offset : Nat)
    (data : List Nat) (h : offset + data.length ≤ capacity total) :
    ∃ d2, TrekDevice.write d total (offset : Int) data = .ok d2 ∧
      TrekDevice.read d2 total (offset : Int) (data.length : Int) = .ok data ∧
      ∀ a, a < offset ∨ offset + data.length ≤ a → d2 a = d a := by
  obtain ⟨d2, hw, hpt⟩ := write_spec d total offset data h
  refine ⟨d2, hw, ?_, ?_⟩
  · rw [read_spec d2 total offset data.length h]
    refine congrArg Except.ok ?_
    apply List.ext_getElem
    · simp
    · intro i h1 h2
      simp only [List.length_map, List.length_range] at h1
      simp only [List.getElem_map, List.getElem_range]
      rw [hpt, if_pos (by omega), Nat.add_sub_cancel_left]
      exact List.getD_eq_getElem _ _ h2
  · intro a ha
    rw [hpt, if_neg (by omega)]

/-- Claim C4: an in-bounds read of more than MAX_CHUNK_SECTORS sectors is
split into at least two transactions, each of 1..MAX_CHUNK_SECTORS sectors,
issued at strictly ascending, non-overlapping, contiguous lbas summing to
the requested count; the concatenation of the chunk reads equals a single
logical read of the whole range. -/
theorem C4_chunking (d : Nat → Nat) (total lba count : Nat)
    (hb : lba + count ≤ total) (hgt : MAX_CHUNK_SECTORS < count) :
    2 ≤ (chunkPlan lba count).length ∧
    (∀ p ∈ chunkPlan lba count, 0 < p.2 ∧ p.2 ≤ MAX_CHUNK_SECTORS) ∧
    contiguousFrom lba (chunkPlan lba count) = true ∧
    ((chunkPlan lba count).map Prod.snd).sum = count ∧
    TrekDevice.read_blocks d total (lba : Int) (count : Int) =
      .ok (((chunkPlan lba count).map (fun p => readChunk d p.1 p.2)).flatten) ∧
    ((chunkPlan lba count).map (fun p => readChunk d p.1 p.2)).flatten =
      readChunk d lba count := by
  have hflat := readLoop_eq_flatten d count lba
  refine ⟨?_, chunkPlan_bounds count lba, chunkPlan_contiguous count lba,
    chunkPlan_sum count lba, ?_, ?_⟩
  · rw [chunkPlan, dif_neg (by simp only [MAX_CHUNK_SECTORS] at hgt; omega)]
    have h2 : chunkPlan (lba + min count MAX_CHUNK_SECTORS)
        (count - min count MAX_CHUNK_SECTORS) ≠ [] :=
      chunkPlan_ne_nil _ _ (by simp only [MAX_CHUNK_SECTORS] at *; omega)
    have := List.length_pos.mpr h2
    simp only [List.length_cons]
    omega
  · rw [read_blocks_ok d total lba count hb, ← hflat, readLoop_eq]
  · rw [← hflat, readLoop_eq]

/-- Claim C9: degenerate sizes bypass all bounds checks: read_blocks with
count ≤ 0 returns empty for any lba, byte read with length ≤ 0 returns
empty for any offset, and write of an empty payload returns without
raising for any offset. -/
theorem C9_degenerate (d : Nat → Nat) (total : Nat)
    (lba count offset offset2 length : Int) :
    (count ≤ 0 → TrekDevice.read_blocks d total lba count = .ok []) ∧
    (length ≤ 0 → TrekDevice.read d total offset length = .ok []) ∧
    TrekDevice.write d total offset2 [] = .ok d := by
  refine ⟨?_, ?_, ?_⟩
  · intro h
    rw [TrekDevice.read_blocks, if_pos h]
  · intro h
    rw [TrekDevice.read, if_pos h]
  · rw [TrekDevice.write, if_pos (show List.length ([] : List Nat) = 0 from rfl)]

theorem C9_degenerate_witness :
    (-1 : Int) ≤ 0 ∧ (-2 : Int) ≤ 0 ∧
    TrekDevice.read_blocks (fun _ => 0) 4 (-7) (-1) = .ok [] ∧
    TrekDevice.read (fun _ => 0) 4 (-3) (-2) = .ok [] ∧
    TrekDevice.write (fun _ => 0) 4 (-3) [] = .ok (fun _ => 0) :=
  ⟨by decide, by decide,
    (C9_degenerate (fun _ => 0) 4 (-7) (-1) (-3) (-3) (-2)).1 (by decide),
    (C9_degenerate (fun _ => 0) 4 (-7) (-1) (-3) (-3) (-2)).2.1 (by decide),
    (C9_degenerate (fun _ => 0) 4 (-7) (-1) (-3) (-3) (-2)).2.2⟩

/-- Claim C10: the file-backed capacity ss * (size / ss) is the largest
multiple of the sector size not exceeding the file size; a trailing
partial sector is never exported. -/
theorem C10_file_capacity (size ss : Nat) (hss : 0 < ss) :
    BlockDevice.capacity ss (FileBlockDevice.total_sectors size ss) ≤ size ∧
    size < BlockDevice.capacity ss (FileBlockDevice.total_sectors size ss) + ss ∧
    ss ∣ BlockDevice.capacity ss (FileBlockDevice.total_sectors size ss) ∧
    ∀ m, ss ∣ m → m ≤ size →
      m ≤ BlockDevice.capacity ss (FileBlockDevice.total_sectors size ss) := by
  refine ⟨Nat.mul_div_le size ss, ?_, Dvd.intro _ rfl, ?_⟩
  · have h1 := Nat.div_add_mod size ss
    have h2 := Nat.mod_lt size hss
    simp only [BlockDevice.capacity, FileBlockDevice.total_sectors]
    omega
  · rintro m ⟨k, rfl⟩ hm
    have hk : k ≤ size / ss :=
      (Nat.le_div_iff_mul_le hss).mpr (by rw [Nat.mul_comm]; exact hm)
    exact Nat.mul_le_mul_left ss hk

theorem C10_file_capacity_witness :
    0 < 512 ∧
    BlockDevice.capacity 512 (FileBlockDevice.total_sectors 1300 512) ≤ 1300 ∧
    1300 < BlockDevice.capacity 512 (FileBlockDevice.total_sectors 1300 512) + 512 ∧
    512 ∣ BlockDevice.capacity 512 (FileBlockDevice.total_sectors 1300 512) ∧
    ∀ m, 512 ∣ m → m ≤ 1300 →
      m ≤ BlockDevice.capacity 512 (FileBlockDevice.total_sectors 1300 512) :=
  ⟨by decide, (C10_file_capacity 1300 512 (by decide)).1,
    (C10_file_capacity 1300 512 (by decide)).2.1,
    (C10_file_capacity 1300 512 (by decide)).2.2.1,
    (C10_file_capacity 1300 512 (by decide)).2.2.2⟩

/-- Claim C8: the geometry response is parsed as two little-endian 32-bit
size parameters at offsets 0x0B and 0x0F, total sectors their product and
byte capacity total sectors * 512; a response shorter than 31 bytes fails
with ProtocolError after releasing the transport. -/
theorem C8_geometry (data : List Nat) :
    (data.length < INFO_RESPONSE_LEN →
      TrekDevice.open_model data = (.error .protocolError, true)) ∧
    (INFO_RESPONSE_LEN ≤ data.length →
      ∃ info, TrekDevice.open_model data = (.ok info, false) ∧
        info.size_param1 = le32 data 11 ∧
        info.size_param2 = le32 data 15 ∧
        info.total_sectors = info.size_param1 * info.size_param2 ∧
        info.total_bytes = info.total_sectors * SECTOR_SIZE) := by
  constructor
  · intro h
    simp [TrekDevice.open_model, DeviceInfo.from_bytes, h]
  · intro h
    simp only [TrekDevice.open_model, DeviceInfo.from_bytes,
      if_neg (Nat.not_lt.mpr h)]
    exact ⟨_, rfl, rfl, rfl, rfl, rfl⟩

theorem C8_geometry_witness :
    (List.replicate 9 1).length < INFO_RESPONSE_LEN ∧
    TrekDevice.open_model (List.replicate 9 1) = (.error .protocolError, true) ∧
    INFO_RESPONSE_LEN ≤ (List.replicate 31 2).length ∧
    (∃ info, TrekDevice.open_model (List.replicate 31 2) = (.ok info, false) ∧
      info.size_param1 = le32 (List.replicate 31 2) 11 ∧
      info.size_param2 = le32 (List.replicate 31 2) 15 ∧
      info.total_sectors = info.size_param1 * info.size_param2 ∧
      info.total_bytes = info.total_sectors * SECTOR_SIZE) :=
  ⟨by decide, (C8_geometry (List.replicate 9 1)).1 (by decide),
    by decide, (C8_geometry (List.replicate 31 2)).2 (by decide)⟩

set_option maxRecDepth 10000 in
/-- Claim C2 counterexample: a file-backed device holding exactly one
512-byte sector answers an out-of-range two-sector read with ok (the
whole file) — no RangeError is raised. -/
theorem C2_counterexample :
    FileBlockDevice.total_sectors (List.replicate 512 7).length 512 = 1 ∧
    FileBlockDevice.read_blocks (List.replicate 512 7) 512 0 2 =
      .ok (List.replicate 512 7) := by
  exact ⟨by decide, rfl⟩

/-- Claim C2 (amended): the hardware-backed variant rejects every
out-of-range positive-size request with RangeError before any mutation;
the file-backed variant performs no bounds check and returns ok for every
nonnegative sector range. -/
theorem C2_range_rejection (d : Nat → Nat) (total : Nat)
    (lba count offset : Int) (data : List Nat) (f : List Nat) (ss : Nat) :
    (0 < count → (lba < 0 ∨ (total : Int) < lba + count) →
      TrekDevice.read_blocks d total lba count = .error .rangeError) ∧
    ((data.length : Int) = count * (SECTOR_SIZE : Int) →
      (lba < 0 ∨ (total : Int) < lba + count) →
      TrekDevice.write_blocks d total lba count data = .error .rangeError ∧
      runWrite d (TrekDevice.write_blocks d total lba count data) = d) ∧
    (0 < count → (offset < 0 ∨ (capacity total : Int) < offset + count) →
      TrekDevice.read d total offset count = .error .rangeError) ∧
    (data ≠ [] →
      (offset < 0 ∨ (capacity total : Int) < offset + (data.length : Int)) →
      TrekDevice.write d total offset data = .error .rangeError ∧
      runWrite d (TrekDevice.write d total offset data) = d) ∧
    (0 ≤ lba → 0 ≤ count →
      ∃ bs, FileBlockDevice.read_blocks f ss lba count = .ok bs) := by
  refine ⟨?_, ?_, ?_, ?_, ?_⟩
  · intro h1 h2
    exact read_blocks_err d total lba count h1 h2
  · intro h1 h2
    have he := write_blocks_err d total lba count data h1 h2
    exact ⟨he, by rw [runWrite.eq_def, he]⟩
  · intro h1 h2
    rw [TrekDevice.read, if_neg (by omega), if_pos (by omega)]
  · intro h1 h2
    have hl : data.length ≠ 0 := fun hc => h1 (List.length_eq_zero.mp hc)
    have he : TrekDevice.write d total offset data = .error .rangeError := by
      rw [TrekDevice.write, if_neg hl, if_pos (by omega)]
    exact ⟨he, by rw [runWrite.eq_def, he]⟩
  · intro h1 h2
    rw [FileBlockDevice.read_blocks,
      if_neg (not_lt.mpr (mul_nonneg h1 (Int.natCast_nonneg ss))),
      if_neg (not_lt.mpr (mul_nonneg h2 (Int.natCast_nonneg ss)))]
    exact ⟨_, rfl⟩

set_option maxRecDepth 10000 in
theorem C2_range_rejection_witness :
    (0 : Int) < 1 ∧
    ((List.replicate 512 7).length : Int) = 1 * (SECTOR_SIZE : Int) ∧
    (List.replicate 512 7) ≠ ([] : List Nat) ∧
    TrekDevice.read_blocks (fun _ => 0) 4 5 1 = .error .rangeError ∧
    (TrekDevice.write_blocks (fun _ => 0) 4 5 1 (List.replicate 512 7) =
        .error .rangeError ∧
      runWrite (fun _ => 0)
        (TrekDevice.write_blocks (fun _ => 0) 4 5 1 (List.replicate 512 7)) =
        fun _ => 0) ∧
    TrekDevice.read (fun _ => 0) 4 (-1) 1 = .error .rangeError ∧
    (TrekDevice.write (fun _ => 0) 4 (-1) (List.replicate 512 7) =
        .error .rangeError ∧
      runWrite (fun _ => 0)
        (TrekDevice.write (fun _ => 0) 4 (-1) (List.replicate 512 7)) =
        fun _ => 0) ∧
    (∃ bs, FileBlockDevice.read_blocks [1, 2, 3] 512 5 1 = .ok bs) :=
  ⟨by decide, by decide, by decide,
    (C2_range_rejection (fun _ => 0) 4 5 1 (-1) (List.replicate 512 7)
      [1, 2, 3] 512).1 (by decide) (by decide),
    (C2_range_rejection (fun _ => 0) 4 5 1 (-1) (List.replicate 512 7)
      [1, 2, 3] 512).2.1 (by decide) (by decide),
    (C2_range_rejection (fun _ => 0) 4 5 1 (-1) (List.replicate 512 7)
      [1, 2, 3] 512).2.2.1 (by decide) (by decide),
    (C2_range_rejection (fun _ => 0) 4 5 1 (-1) (List.replicate 512 7)
      [1, 2, 3] 512).2.2.2.1 (by decide) (by decide),
    (C2_range_rejection (fun _ => 0) 4 5 1 (-1) (List.replicate 512 7)
      [1, 2, 3] 512).2.2.2.2 (by decide) (by decide)⟩

set_option maxRecDepth 10000 in
/-- Claim C3 counterexample: the file-backed write_blocks accepts a
payload whose length (3) differs from count * sector_size (512) and
writes it, instead of failing with LengthMismatch. -/
theorem C3_counterexample :
    FileBlockDevice.write_blocks (List.replicate 512 0) 512 0 1 [1, 2, 3] =
      .ok ([1, 2, 3] ++ List.replicate 509 0) ∧
    FileBlockDevice.write_blocks (List.replicate 512 0) 512 0 1 [1, 2, 3] ≠
      .error .lengthMismatch := by
  have h : FileBlockDevice.write_blocks (List.replicate 512 0) 512 0 1 [1, 2, 3] =
      .ok ([1, 2, 3] ++ List.replicate 509 0) := rfl
  exact ⟨h, by rw [h]; exact fun hc => Except.noConfusion hc⟩

/-- Claim C3 (amended): for the hardware-backed variant an in-bounds read
of count > 0 sectors returns exactly count * 512 bytes and a payload of
the wrong length fails with LengthMismatch; for the file-backed variant an
in-bounds read also returns count * ss bytes, but write_blocks never
checks the payload length and succeeds for any nonnegative lba. -/
theorem C3_read_length_write_mismatch (d : Nat → Nat) (total : Nat)
    (lba count : Nat) (data : List Nat) (f : List Nat) (ss : Nat) :
    (lba + count ≤ total →
      ∃ bs, TrekDevice.read_blocks d total (lba : Int) (count : Int) = .ok bs ∧
        bs.length = count * SECTOR_SIZE) ∧
    ((data.length : Int) ≠ (count : Int) * (SECTOR_SIZE : Int) →
      TrekDevice.write_blocks d total (lba : Int) (count : Int) data =
        .error .lengthMismatch) ∧
    (0 < ss → lba + count ≤ FileBlockDevice.total_sectors f.length ss →
      ∃ bs, FileBlockDevice.read_blocks f ss (lba : Int) (count : Int) = .ok bs ∧
        bs.length = count * ss) ∧
    (∃ f2,
      FileBlockDevice.write_blocks f ss (lba : Int) (count : Int) data = .ok f2) := by
  refine ⟨?_, ?_, ?_, ?_⟩
  · intro h
    exact ⟨_, read_blocks_ok d total lba count h, length_readChunk d lba count⟩
  · intro h
    exact write_blocks_len_err d total _ _ data h
  · intro hss hle
    rw [FileBlockDevice.read_blocks,
      if_neg (not_lt.mpr (mul_nonneg (Int.natCast_nonneg lba) (Int.natCast_nonneg ss))),
      if_neg (not_lt.mpr (mul_nonneg (Int.natCast_nonneg count) (Int.natCast_nonneg ss)))]
    refine ⟨_, rfl, ?_⟩
    have hcast1 : ((lba : Int) * (ss : Int)).toNat = lba * ss := by
      rw [← Nat.cast_mul, Int.toNat_ofNat]
    have hcast2 : ((count : Int) * (ss : Int)).toNat = count * ss := by
      rw [← Nat.cast_mul, Int.toNat_ofNat]
    rw [hcast1, hcast2, List.length_take, List.length_drop]
    have h3 : (lba + count) * ss = lba * ss + count * ss := by ring
    have h4 : (lba + count) * ss ≤ f.length :=
      (Nat.le_div_iff_mul_le hss).mp hle
    omega
  · rw [FileBlockDevice.write_blocks,
      if_neg (not_lt.mpr (mul_nonneg (Int.natCast_nonneg lba) (Int.natCast_nonneg ss)))]
    exact ⟨_, rfl⟩

theorem C3_read_length_write_mismatch_witness :
    2 + 1 ≤ 4 ∧
    ((([] : List Nat).length : Int) ≠ (1 : Int) * (SECTOR_SIZE : Int)) ∧
    0 < 4 ∧ 2 + 1 ≤ FileBlockDevice.total_sectors [1, 2, 3, 4, 5, 6,
      7, 8, 9, 10, 11, 12, 13].length 4 ∧
    (∃ bs, TrekDevice.read_blocks (fun _ => 0) 4 (2 : Nat) (1 : Nat) = .ok bs ∧
      bs.length = 1 * SECTOR_SIZE) ∧
    TrekDevice.write_blocks (fun _ => 0) 4 (2 : Nat) (1 : Nat) [] =
      .error .lengthMismatch ∧
    (∃ bs, FileBlockDevice.read_blocks [1, 2, 3, 4, 5, 6, 7, 8, 9, 10, 11,
        12, 13] 4 (2 : Nat) (1 : Nat) = .ok bs ∧ bs.length = 1 * 4) ∧
    (∃ f2, FileBlockDevice.write_blocks [1, 2, 3, 4, 5, 6, 7, 8, 9, 10, 11,
        12, 13] 4 (2 : Nat) (1 : Nat) [] = .ok f2) :=
  ⟨by decide, by decide, by decide, by decide,
    (C3_read_length_write_mismatch (fun _ => 0) 4 2 1 [] [1, 2, 3, 4, 5, 6,
      7, 8, 9, 10, 11, 12, 13] 4).1 (by decide),
    (C3_read_length_write_mismatch (fun _ => 0) 4 2 1 [] [1, 2, 3, 4, 5, 6,
      7, 8, 9, 10, 11, 12, 13] 4).2.1 (by decide),
    (C3_read_length_write_mismatch (fun _ => 0) 4 2 1 [] [1, 2, 3, 4, 5, 6,
      7, 8, 9, 10, 11, 12, 13] 4).2.2.1 (by decide) (by decide),
    (C3_read_length_write_mismatch (fun _ => 0) 4 2 1 [] [1, 2, 3, 4, 5, 6,
      7, 8, 9, 10, 11, 12, 13] 4).2.2.2⟩

/-- Claim C5 (amended): handling a FLUSH request replies with error code 0
without performing any BlockDevice call: no flush or sync reaches the
backing storage (file-backed durability relies on the flush inside each
write_blocks, not on the FLUSH command). -/
theorem C5_flush_noop (ro : Bool) (d : Nat → Nat) (total offset length : Nat)
    (stream : List Nat) :
    handleRequest ro d total NBD_CMD_FLUSH offset length stream =
      { reply := some { err := 0, payload := [] }, mem := d, mutations := [],
        consumed := 0, cont := true } :=
  rfl

/-- Claim C5 counterexample: the FLUSH handler replies 0 but its list of
performed device operations is empty — in particular it contains no flush,
contradicting the claimed explicit flush plus sync for the file-backed
variant. -/
theorem C5_counterexample :
    (handleRequest false (fun _ => 0) 4 NBD_CMD_FLUSH 0 0 []).reply =
      some { err := 0, payload := [] } ∧
    (handleRequest false (fun _ => 0) 4 NBD_CMD_FLUSH 0 0 []).mutations = [] ∧
    DevOp.flush ∉ (handleRequest false (fun _ => 0) 4 NBD_CMD_FLUSH 0 0 []).mutations := by
  refine ⟨rfl, rfl, ?_⟩
  intro hmem
  rw [show (handleRequest false (fun _ => 0) 4 NBD_CMD_FLUSH 0 0 []).mutations =
    [] from rfl] at hmem
  cases hmem

theorem read_blocks_natCast (d : Nat → Nat) (total lba count : Nat) :
    TrekDevice.read_blocks d total (lba : Int) (count : Int) =
      if count = 0 then .ok []
      else if total < lba + count then .error .rangeError
      else .ok (readChunk d lba count) := by
  by_cases h0 : count = 0
  · rw [TrekDevice.read_blocks, if_pos (by omega), if_pos h0]
  · rw [TrekDevice.read_blocks, if_neg (by omega), if_neg h0]
    by_cases hb : total < lba + count
    · rw [if_pos (by omega), if_pos hb]
    · rw [if_neg (by omega), if_neg hb, readLoop_eq]
      simp

theorem nbdReadAttempt_ok_length (d : Nat → Nat) (total offset length : Nat)
    (bs : List Nat) (h : nbdReadAttempt d total offset length = .ok bs) :
    bs.length = length := by
  rw [nbdReadAttempt] at h
  split_ifs at h with hal
  · simp only [nbd_byte_read, read_blocks_natCast] at h
    rw [if_neg (by omega)] at h
    by_cases hb : total < offset / SECTOR_SIZE +
        ((offset + length - 1) / SECTOR_SIZE - offset / SECTOR_SIZE + 1)
    · rw [if_pos hb] at h
      simp [Except.map] at h
    · rw [if_neg hb] at h
      simp only [Except.map] at h
      cases h
      rw [List.length_take, List.length_drop, length_readChunk]
      simp only [SECTOR_SIZE] at *
      omega
  · rw [read_blocks_natCast] at h
    push_neg at hal
    split_ifs at h with h1 h2
    · cases h
      simp only [List.length_nil, SECTOR_SIZE] at *
      omega
    · cases h
      rw [length_readChunk]
      simp only [SECTOR_SIZE] at *
      omega

/-- Claim C6: a READ request is always answered; a successful device read
replies error code 0 followed by the data, any device fault replies the
nonzero I/O error code 5 with a zero-filled payload of the requested
length, and in every case the payload is exactly the requested length, so
the reply keeps its fixed size header + length bytes. -/
theorem C6_read_reply (ro : Bool) (d : Nat → Nat) (total offset length : Nat)
    (stream : List Nat) :
    ∃ r, (handleRequest ro d total NBD_CMD_READ offset length stream).reply =
        some r ∧
      r.payload.length = length ∧
      ((r.err = 0 ∧ nbdReadAttempt d total offset length = .ok r.payload) ∨
       (r.err = NBD_EIO ∧ r.payload = List.replicate length 0 ∧
         ∃ e, nbdReadAttempt d total offset length = .error e)) := by
  cases hr : nbdReadAttempt d total offset length with
  | ok bs =>
      refine ⟨{ err := 0, payload := bs }, ?_, ?_, Or.inl ⟨rfl, ?_⟩⟩
      · rw [handleRequest, if_pos rfl, hr]
      · exact nbdReadAttempt_ok_length d total offset length bs hr
      · exact rfl
  | error e =>
      refine ⟨{ err := NBD_EIO, payload := List.replicate length 0 }, ?_,
        by simp, Or.inr ⟨rfl, rfl, ⟨e, ?_⟩⟩⟩
      · rw [handleRequest, if_pos rfl, hr]
      · exact rfl

/-- Claim C7: a WRITE request drains the full declared payload length off
the wire before any outcome is decided, and on a read-only export replies
error code 22 (invalid argument) without performing any mutating device
call, leaving the device state untouched. -/
theorem C7_write_drain_readonly (ro : Bool) (d : Nat → Nat)
    (total offset length : Nat) (stream : List Nat)
    (hs : length ≤ stream.length) :
    (handleRequest ro d total NBD_CMD_WRITE offset length stream).consumed =
      length ∧
    (stream.take length).length = length ∧
    (ro = true →
      (handleRequest ro d total NBD_CMD_WRITE offset length stream).reply =
        some { err := NBD_EINVAL, payload := [] } ∧
      (handleRequest ro d total NBD_CMD_WRITE offset length stream).mem = d ∧
      (handleRequest ro d total NBD_CMD_WRITE offset length stream).mutations =
        []) := by
  refine ⟨?_, by rw [List.length_take]; omega, ?_⟩
  · rw [handleRequest, if_neg (by decide), if_pos rfl]
    cases ro
    · simp only [Bool.false_eq_true, if_false]
      by_cases hal : offset % SECTOR_SIZE ≠ 0 ∨ length % SECTOR_SIZE ≠ 0
      · rw [if_pos hal]
        cases nbd_byte_write d total offset (stream.take length) <;> rfl
      · rw [if_neg hal]
        cases TrekDevice.write_blocks d total
          ((offset / SECTOR_SIZE : Nat) : Int)
          ((length / SECTOR_SIZE : Nat) : Int) (stream.take length) <;> rfl
    · rfl
  · intro hro
    subst hro
    exact ⟨rfl, rfl, rfl⟩

theorem C7_write_drain_readonly_witness :
    2 ≤ ([4, 5, 6] : List Nat).length ∧
    (handleRequest true (fun _ => 9) 4 NBD_CMD_WRITE 1 2 [4, 5, 6]).consumed = 2 ∧
    (([4, 5, 6] : List Nat).take 2).length = 2 ∧
    (handleRequest true (fun _ => 9) 4 NBD_CMD_WRITE 1 2 [4, 5, 6]).reply =
      some { err := NBD_EINVAL, payload := [] } ∧
    (handleRequest true (fun _ => 9) 4 NBD_CMD_WRITE 1 2 [4, 5, 6]).mem =
      (fun _ => 9) ∧
    (handleRequest true (fun _ => 9) 4 NBD_CMD_WRITE 1 2 [4, 5, 6]).mutations =
      [] :=
  ⟨by decide,
    (C7_write_drain_readonly true (fun _ => 9) 4 1 2 [4, 5, 6] (by decide)).1,
    (C7_write_drain_readonly true (fun _ => 9) 4 1 2 [4, 5, 6] (by decide)).2.1,
    ((C7_write_drain_readonly true (fun _ => 9) 4 1 2 [4, 5, 6] (by decide)).2.2
      rfl).1,
    ((C7_write_drain_readonly true (fun _ => 9) 4 1 2 [4, 5, 6] (by decide)).2.2
      rfl).2.1,
    ((C7_write_drain_readonly true (fun _ => 9) 4 1 2 [4, 5, 6] (by decide)).2.2
      rfl).2.2⟩

theorem C1_write_read_roundtrip_witness :
    5 + ([1, 2, 3] : List Nat).length ≤ capacity 1 ∧
    (∃ d2, TrekDevice.write (fun _ => 9) 1 (((5 : Nat) : Int)) [1, 2, 3] =
        .ok d2 ∧
      TrekDevice.read d2 1 (((5 : Nat) : Int))
        ((([1, 2, 3] : List Nat).length : Int)) = .ok [1, 2, 3] ∧
      ∀ a, a < 5 ∨ 5 + ([1, 2, 3] : List Nat).length ≤ a →
        d2 a = (fun _ => 9 : Nat → Nat) a) :=
  ⟨by decide, C1_write_read_roundtrip (fun _ => 9) 1 5 [1, 2, 3] (by decide)⟩

theorem C4_chunking_witness :
    1 + 65 ≤ 100 ∧ MAX_CHUNK_SECTORS < 65 ∧
    (2 ≤ (chunkPlan 1 65).length ∧
    (∀ p ∈ chunkPlan 1 65, 0 < p.2 ∧ p.2 ≤ MAX_CHUNK_SECTORS) ∧
    contiguousFrom 1 (chunkPlan 1 65) = true ∧
    ((chunkPlan 1 65).map Prod.snd).sum = 65 ∧
    TrekDevice.read_blocks (fun _ => 0) 100 ((1 : Nat) : Int) ((65 : Nat) : Int) =
      .ok (((chunkPlan 1 65).map (fun p => readChunk (fun _ => 0) p.1 p.2)).flatten) ∧
    ((chunkPlan 1 65).map (fun p => readChunk (fun _ => 0) p.1 p.2)).flatten =
      readChunk (fun _ => 0) 1 65) :=
  ⟨by decide, by decide,
    C4_chunking (fun _ => 0) 100 1 65 (by decide) (by decide)⟩
